import Mathlib

/-
Verification of the natural-language specification of the openlibrary-nyt-bot
repository against a shallow embedding of its Python sources.

Strings are modelled as lists of characters (abbrev Str), so that the Python
string operations used by the bots (startswith, equality, replace) become
executable, decidable list operations.
-/

set_option maxHeartbeats 1000000

abbrev Str := List Char

/-- Convert a Lean string literal to the character-list model. -/
def str (s : String) : Str := s.toList

namespace AddNytReview

/- Embedding of src/add_nyt_review_link.py (class AddNytReviewJob). -/

def URL_STARTS_WITH : Str := str "http"

def NYT_REVIEW_DEFAULT_TITLE : Str := str "New York Times review"

def NYT_TAG_REVIEWED : Str := str "New York Times reviewed"

def OL_LINK_TYPE_KEY_VALUE : Str := str "/type/link"

/-- A link dict on a work.  Each field is optional, as dict keys may be
absent (the code reads them with dict.get). -/
structure Link where
  url : Option Str
  title : Option Str
  type_key : Option Str
deriving DecidableEq, Repr

/-- Python str.replace for the fixed pattern "https://" with
replacement "http://": every non-overlapping occurrence is replaced,
scanning left to right, exactly as str.replace does. -/
def replaceHttps : Str → Str
  | 'h' :: 't' :: 't' :: 'p' :: 's' :: ':' :: '/' :: '/' :: rest =>
      'h' :: 't' :: 't' :: 'p' :: ':' :: '/' :: '/' :: replaceHttps rest
  | c :: rest => c :: replaceHttps rest
  | [] => []

/-- The url field read with dict get and an empty-string default. -/
def getUrlD (l : Link) : Str := l.url.getD []

/-- __need_to_add_nyt_review_link: returns false when some existing link
URL starts with the candidate URL (Python startswith on the url field,
read with an empty default);
a work without a links attribute (modelled as none) raises AttributeError,
and the handler returns true. -/
def need_to_add_nyt_review_link (links : Option (List Link)) (link : Str) : Bool :=
  match links with
  | some ls => ! ls.any (fun lnk => link.isPrefixOf (getUrlD lnk))
  | none => true

/-- The link dict built by __process_review_record for a parsed URL. -/
def mkLinkStruct (u : Str) : Link :=
  { url := some u, title := some NYT_REVIEW_DEFAULT_TITLE,
    type_key := some OL_LINK_TYPE_KEY_VALUE }

/-- The loop of __add_link: the first existing link whose url equals the
http variant of the candidate is updated in place to the candidate URL and
the loop returns; if no link matches, the new link struct is appended. -/
def add_link_go (st : Link) (variant : Str) : List Link → List Link
  | [] => [st]
  | lnk :: rest =>
      if lnk.url = some variant then { lnk with url := st.url } :: rest
      else lnk :: add_link_go st variant rest

/-- __add_link: a work without a links attribute (none) raises
AttributeError and the handler sets links to the singleton list. -/
def add_link (links : Option (List Link)) (st : Link) : List Link :=
  match links with
  | some ls => add_link_go st (replaceHttps (st.url.getD [])) ls
  | none => [st]

/-- The link-merging step of __process_found_bestseller_edition:
__need_to_add_nyt_review_link decides, then __add_link runs. -/
def merge_link (links : Option (List Link)) (u : Str) : Option (List Link) :=
  if need_to_add_nyt_review_link links u then some (add_link links (mkLinkStruct u))
  else links

/-- The job_results counters of AddNytReviewJob. -/
structure RevResults where
  books_imported : Nat
  links_added : Nat
  links_already_exist : Nat
  isbns_failed : Nat
  subjects_added : Nat
  subjects_already_exist : Nat
deriving DecidableEq, Repr

/-- A work, as touched by this bot: a subjects list and a links list,
either of which may be absent. -/
structure RWork where
  subjects : Option (List Str)
  links : Option (List Link)
deriving DecidableEq, Repr

/-- An edition; its work reference may be falsy. -/
structure REdition where
  work : Option RWork
deriving DecidableEq, Repr

/-- __add_bestseller_review_tag: appends the subject when missing
(counting subjects_added), counts subjects_already_exist when present;
a missing subjects attribute is initialised to the singleton. -/
def add_bestseller_review_tag (subjects : Option (List Str)) (tag : Str)
    (jr : RevResults) : Option (List Str) × RevResults :=
  match subjects with
  | some subs =>
      if tag ∈ subs then
        (some subs, { jr with subjects_already_exist := jr.subjects_already_exist + 1 })
      else
        (some (subs ++ [tag]), { jr with subjects_added := jr.subjects_added + 1 })
  | none => (some [tag], { jr with subjects_added := jr.subjects_added + 1 })

/-- The pure part of __process_found_bestseller_edition for a work that
exists: tag merge, then the link decision and merge, with the counters. -/
def process_found_bestseller_edition (w : RWork) (u : Str) (jr : RevResults) :
    RWork × RevResults :=
  let p := add_bestseller_review_tag w.subjects NYT_TAG_REVIEWED jr
  let w1 : RWork := { w with subjects := p.1 }
  if need_to_add_nyt_review_link w1.links u then
    ({ w1 with links := some (add_link w1.links (mkLinkStruct u)) },
     { p.2 with links_added := p.2.links_added + 1 })
  else
    (w1, { p.2 with links_already_exist := p.2.links_already_exist + 1 })

/-- __parse_review_record: raises when the record does not have exactly two
items, finds the first item starting with http as the URL (the other item is
the ISBN), and raises when no item starts with http.  Raising is modelled
as Except.error. -/
def parse_review_record (rec : List Str) : Except Unit (Str × Str) :=
  if rec.length ≠ 2 then .error ()
  else
    match rec with
    | [a, b] =>
        if URL_STARTS_WITH.isPrefixOf a then .ok (a, b)
        else if URL_STARTS_WITH.isPrefixOf b then .ok (b, a)
        else .error ()
    | _ => .error ()

/-- Outcome of self.ol.Edition.get for one ISBN: the lookup itself may
raise (caught by the bare except of __process_review_record), return a
falsy edition, or return an edition. -/
inductive RevLookup where
  | raise
  | notFound
  | found (e : REdition)

/-- __process_review_record.  The parse call is evaluated BEFORE the try
block, so a parse failure propagates out (Except.error) instead of being
caught; failures inside the try block are caught and counted in
isbns_failed.  The SystemExit branch (operator interrupt) is outside this
model. -/
def process_review_record (env : Str → RevLookup) (rec : List Str)
    (jr : RevResults) : Except Unit RevResults :=
  match parse_review_record rec with
  | .error e => .error e
  | .ok (u, isbn) =>
      match env isbn with
      | .raise => .ok { jr with isbns_failed := jr.isbns_failed + 1 }
      | .notFound => .ok { jr with books_imported := jr.books_imported + 1 }
      | .found e =>
          match e.work with
          | none => .ok { jr with isbns_failed := jr.isbns_failed + 1 }
          | some w => .ok (process_found_bestseller_edition w u jr).2

/-- The batch loop of run: records are processed in order; an uncaught
error aborts the remaining records. -/
def run_records (env : Str → RevLookup) : List (List Str) → RevResults →
    Except Unit RevResults
  | [], jr => .ok jr
  | rec :: rest, jr =>
      match process_review_record env rec jr with
      | .error e => .error e
      | .ok jr1 => run_records env rest jr1

end AddNytReview

namespace AddNytTag

/- Embedding of src/add_nyt_bestseller_tag.py (class AddNytBestsellerJob). -/

/-- NYT_TAG_PREFIX in the source. -/
def nytTagStart : Str := str "nyt:"

def NYT_TAG_BESTSELLER : Str := str "New York Times bestseller"

/-- __need_to_add_nyt_bestseller_tag: false when some existing subject
starts with either recognized marker (Python startswith on the tuple);
a work without a subjects attribute (none) raises AttributeError and the
handler returns true. -/
def need_to_add_nyt_bestseller_tag (subjects : Option (List Str)) : Bool :=
  match subjects with
  | some subs =>
      ! subs.any (fun s => nytTagStart.isPrefixOf s || NYT_TAG_BESTSELLER.isPrefixOf s)
  | none => true

/-- __add_tags: extends the existing subjects list, or initialises it when
the attribute is absent. -/
def add_tags (subjects : Option (List Str)) (new_tags : List Str) : List Str :=
  match subjects with
  | some subs => subs ++ new_tags
  | none => new_tags

/-- The new_tags list built by __process_bestseller_group_record. -/
def mk_new_tags (list_name_encoded published_date : Str) : List Str :=
  [nytTagStart ++ list_name_encoded ++ ['='] ++ published_date, NYT_TAG_BESTSELLER]

/-- The tag-merging step of __process_found_bestseller_edition:
__need_to_add_nyt_bestseller_tag decides, then __add_tags runs. -/
def merge_tags (subjects : Option (List Str)) (new_tags : List Str) :
    Option (List Str) :=
  if need_to_add_nyt_bestseller_tag subjects then some (add_tags subjects new_tags)
  else subjects

/-- The job_results counters of AddNytBestsellerJob. -/
structure TagResults where
  total_books_processed : Nat
  books_imported : Nat
  books_imported_isbns : List Str
  tags_added : Nat
  tags_already_exist : Nat
  isbns_failed : Nat
deriving DecidableEq, Repr

structure TWork where
  subjects : Option (List Str)
deriving DecidableEq, Repr

structure TEdition where
  work : Option TWork
deriving DecidableEq, Repr

/-- Outcome of self.ol.Edition.get for one ISBN, together with whether the
subsequent save call would raise.  SystemExit (operator interrupt) aborts an
iteration before its completion and is outside this model of completed
iterations. -/
inductive TagLookup where
  | raise
  | notFound
  | found (e : TEdition) (saveRaises : Bool)

/-- __process_found_bestseller_edition, counters only: raises (Except.error)
when the edition has no work or when the save call raises; note tags_added
is incremented only after the save succeeds. -/
def tag_process_found (e : TEdition) (saveRaises : Bool) (jr : TagResults) :
    Except Unit TagResults :=
  match e.work with
  | none => .error ()
  | some w =>
      if need_to_add_nyt_bestseller_tag w.subjects then
        if saveRaises then .error ()
        else .ok { jr with tags_added := jr.tags_added + 1 }
      else .ok { jr with tags_already_exist := jr.tags_already_exist + 1 }

/-- One completed iteration of the ISBN loop of
__process_bestseller_group_record: the try block runs (its failures are
caught and counted in isbns_failed), then total_books_processed is
incremented. -/
def step (env : Str → TagLookup) (jr : TagResults) (isbn : Str) : TagResults :=
  let jr1 :=
    match env isbn with
    | .raise => { jr with isbns_failed := jr.isbns_failed + 1 }
    | .notFound =>
        { jr with books_imported := jr.books_imported + 1,
                  books_imported_isbns := jr.books_imported_isbns ++ [isbn] }
    | .found e sr =>
        match tag_process_found e sr jr with
        | .ok jr2 => jr2
        | .error _ => { jr with isbns_failed := jr.isbns_failed + 1 }
  { jr1 with total_books_processed := jr1.total_books_processed + 1 }

structure BestsellerGroup where
  list_name_encoded : Str
  published_date : Str
  isbns : List Str
deriving DecidableEq, Repr

/-- The initial job_results counters built by run. -/
def init_results : TagResults :=
  { total_books_processed := 0, books_imported := 0, books_imported_isbns := [],
    tags_added := 0, tags_already_exist := 0, isbns_failed := 0 }

/-- run: fold the completed iterations of the ISBN loop of every group over the
initial counters. -/
def runJob (env : Str → TagLookup) (groups : List BestsellerGroup) : TagResults :=
  groups.foldl (fun jr g => g.isbns.foldl (step env) jr) init_results

/-- The counter invariant of claim C10. -/
def counters_ok (jr : TagResults) : Prop :=
  jr.total_books_processed =
    jr.books_imported + jr.tags_added + jr.tags_already_exist + jr.isbns_failed
  ∧ jr.books_imported = jr.books_imported_isbns.length

instance (jr : TagResults) : Decidable (counters_ok jr) := by
  unfold counters_ok
  infer_instance

end AddNytTag

namespace MainHist

/- Embedding of src/main.py (bestseller-history canonical-list selection).
Dates: the source stores bestsellers_date as an ISO date string, parses it
with datetime.fromisoformat for comparison (strToDate) and formats it back
with strftime (dateToStr); on the valid ISO dates the API supplies this
round trip is the identity and date order is total, so dates are modelled
as naturals and strToDate / dateToStr as the identity. -/

structure RankEntry where
  bestsellers_date : Nat
  list_name : Str
  primary_isbn13 : Option Str
deriving DecidableEq, Repr

structure IsbnPair where
  isbn10 : Str
  isbn13 : Str
deriving DecidableEq, Repr

structure HistResult where
  ranks_history : List RankEntry
  isbns : List IsbnPair
deriving DecidableEq, Repr

structure HistResponse where
  results : List HistResult
deriving DecidableEq, Repr

structure HistOut where
  alternative_isbns : List Str
  primary_isbn : Option Str
  list_name : Str
  bestsellers_date : Nat
deriving DecidableEq, Repr

/-- get_oldest_bestseller_lists: indexing rank_history[0] raises on an
empty list (modelled as none); otherwise the loop folds min over all
entries starting from the date of the first entry, and the entries carrying the
minimum date are kept. -/
def get_oldest_bestseller_lists (rank_history : List RankEntry) :
    Option (List RankEntry) :=
  match rank_history with
  | [] => none
  | r0 :: _ =>
      let oldest := rank_history.foldl (fun d r => min d r.bestsellers_date)
        r0.bestsellers_date
      some (rank_history.filter (fun r => r.bestsellers_date = oldest))

/-- get_bestseller_lists_shortest_name, faithfully including its defect:
the loop body assigns min(shortest_list_name_length, len(list_name)) to the
dead variable oldest_date and never updates shortest_list_name_length, so
the filter keeps the entries whose list_name length equals the FIRST
entry. -/
def get_bestseller_lists_shortest_name (rank_history : List RankEntry) :
    Option (List RankEntry) :=
  match rank_history with
  | [] => none
  | r0 :: _ =>
      some (rank_history.filter (fun r => r.list_name.length = r0.list_name.length))

/-- choose_bestseller_list: reads results[0].ranks_history, filters to the
oldest entries, then to the first-entry-length entries, and returns the
first remaining entry; every empty indexing raises (none). -/
def choose_bestseller_list (results : List HistResult) : Option RankEntry := do
  let r0 ← results.head?
  let oldest ← get_oldest_bestseller_lists r0.ranks_history
  let shortest ← get_bestseller_lists_shortest_name oldest
  shortest.head?

/-- get_isbns: collects, per isbn pair in order, isbn10 when it has length
10 and isbn13 when it has length 13. -/
def get_isbns (result : HistResult) : List Str :=
  result.isbns.foldl
    (fun acc p =>
      (acc ++ (if p.isbn10.length = 10 then [p.isbn10] else []))
        ++ (if p.isbn13.length = 13 then [p.isbn13] else []))
    []

/-- process_history_response: an empty results list returns None; otherwise
the canonical entry is selected and the output dict assembled. -/
def process_history_response (resp : HistResponse) : Option HistOut :=
  if resp.results.length = 0 then none
  else do
    let sel ← choose_bestseller_list resp.results
    let r0 ← resp.results.head?
    some { alternative_isbns := get_isbns r0,
           primary_isbn := sel.primary_isbn13,
           list_name := sel.list_name,
           bestsellers_date := sel.bestsellers_date }

end MainHist

namespace Collector

/- Embedding of src/nyt_bestseller_collector.py. -/

structure NytBook where
  primary_isbn13 : Option Str
  primary_isbn10 : Option Str
  weeks_on_list : Option Nat
deriving DecidableEq, Repr

structure NytList where
  list_name_encoded : Str
  updated : Option Str
  books : List NytBook
deriving DecidableEq, Repr

structure Overview where
  published_date : Str
  lists : List NytList
deriving DecidableEq, Repr

structure ListData where
  list_name_encoded : Str
  published_date : Str
  isbns : List Str
deriving DecidableEq, Repr

def WEEKLY : Str := str "WEEKLY"

def MONTHLY : Str := str "MONTHLY"

/-- Python truthiness of the Optional[bool] returned by
first_time_on_list (None and False are falsy). -/
def truthy : Option Bool → Bool
  | none => false
  | some b => b

/-- first_time_on_list: for a WEEKLY list, weeks_on_list == 1; for a
MONTHLY list, weeks_on_list == 0; any other cadence falls through and the
function returns None. -/
def first_time_on_list (l : NytList) (b : NytBook) : Option Bool :=
  if l.updated = some WEEKLY then some (decide (b.weeks_on_list = some 1))
  else if l.updated = some MONTHLY then some (decide (b.weeks_on_list = some 0))
  else none

/-- The ISBN selection of process_overview_response (and of
process_overview_response_reviews): the primary_isbn13 field, read with an
empty default, when it has exactly 13 characters, otherwise the
primary_isbn10 field, whose absence raises KeyError (Except.error). -/
def select_isbn (b : NytBook) : Except Unit Str :=
  let i13 := b.primary_isbn13.getD []
  if i13.length = 13 then .ok i13
  else
    match b.primary_isbn10 with
    | some i10 => .ok i10
    | none => .error ()

/-- The inner book loop of process_overview_response: the selected ISBN of a first-time book is appended to the list output and inserted into the seen
set unless already seen. -/
def process_books_go (l : NytList) : List NytBook → List Str → List Str →
    Except Unit (List Str × List Str)
  | [], isbns, seen => .ok (isbns, seen)
  | b :: rest, isbns, seen =>
      if truthy (first_time_on_list l b) then
        match select_isbn b with
        | .error e => .error e
        | .ok isbn =>
            if isbn ∈ seen then process_books_go l rest isbns seen
            else process_books_go l rest (isbns ++ [isbn]) (isbn :: seen)
      else process_books_go l rest isbns seen

/-- The outer list loop of process_overview_response: one ListData per
list, in API order, threading the seen set. -/
def process_lists_go (pd : Str) : List NytList → List ListData → List Str →
    Except Unit (List ListData × List Str)
  | [], outs, seen => .ok (outs, seen)
  | l :: rest, outs, seen =>
      match process_books_go l l.books [] seen with
      | .error e => .error e
      | .ok (isbns, seen1) =>
          process_lists_go pd rest
            (outs ++ [{ list_name_encoded := l.list_name_encoded,
                        published_date := pd, isbns := isbns }]) seen1

/-- process_overview_response with the seen-ISBN set threaded explicitly
(the source mutates a Python set in place). -/
def process_overview_response (resp : Overview) (seen : List Str) :
    Except Unit (List ListData × List Str) :=
  process_lists_go resp.published_date resp.lists [] seen

/-- All ISBNs emitted by a sequence of outputs, in order. -/
def emitted (outs : List ListData) : List Str :=
  outs.foldr (fun o acc => o.isbns ++ acc) []

end Collector

deriving instance DecidableEq for Except

/- Concrete inputs used by counterexamples and witnesses. -/

/-- An existing link extending the candidate URL used against claim C1. -/
def c1link : AddNytReview.Link :=
  ⟨some (str "https://www.nyt.com/review-extended"), none, none⟩

/-- The candidate review URL used against claim C1. -/
def c1url : Str := str "https://www.nyt.com/review"

/-- A ranking history with two same-date entries whose second entry has the
strictly shorter list name, used for claim C2. -/
def c2history : List MainHist.HistResult :=
  [⟨[⟨5, str "abcdef", none⟩, ⟨5, str "ab", none⟩], []⟩]

/-- A malformed review record: two items, none starting with http. -/
def c3rec : List Str := [str "foo", str "bar"]

/-- A well-formed review record following the malformed one in a batch. -/
def c3good : List Str := [str "http://x.co", str "111"]

/-- A lookup environment in which every ISBN is absent from the catalog. -/
def revEnvNF : Str → AddNytReview.RevLookup := fun _ => .notFound

/-- Zeroed AddNytReviewJob counters. -/
def revZero : AddNytReview.RevResults := ⟨0, 0, 0, 0, 0, 0⟩

/-- A weekly-list book in its first week, used for the C8 witness. -/
def c8book : Collector.NytBook := ⟨some (str "1234567890123"), none, some 1⟩

/-- First weekly overview response for the C8 witness. -/
def c8resp1 : Collector.Overview :=
  ⟨str "2024-01-01", [⟨str "hardcover-fiction", some Collector.WEEKLY, [c8book]⟩]⟩

/-- Second weekly overview response, on which the first-appearance
predicate fires again for the same ISBN. -/
def c8resp2 : Collector.Overview :=
  ⟨str "2024-01-08", [⟨str "hardcover-fiction", some Collector.WEEKLY, [c8book]⟩]⟩

/-- A lookup environment for the tag job in which every ISBN is absent. -/
def tagEnvNF : Str → AddNytTag.TagLookup := fun _ => .notFound

/- Theorems. -/

/-- Helper: the __add_link loop leaves a block of links without the
variant URL untouched and continues past it. -/
theorem add_link_go_skip (st : AddNytReview.Link) (v : Str)
    (pre rest : List AddNytReview.Link)
    (hpre : ∀ l2 ∈ pre, l2.url ≠ some v) :
    AddNytReview.add_link_go st v (pre ++ rest) =
      pre ++ AddNytReview.add_link_go st v rest := by
  induction pre with
  | nil => simp
  | cons a as ih =>
      have ha : a.url ≠ some v := hpre a (by simp)
      simp only [List.cons_append, AddNytReview.add_link_go, if_neg ha]
      show a :: AddNytReview.add_link_go st v (as ++ rest) = _
      rw [ih (fun l2 hl2 => hpre l2 (by simp [hl2]))]

/-- Claim C1, counterexample: a work with a single link whose URL merely
extends the candidate URL — so no link URL exactly matches the candidate
and no link URL is its http variant — is left unchanged by the merge (the
length stays 1 instead of increasing to 2), because
__need_to_add_nyt_review_link tests startswith rather than equality. -/
theorem c1_counterexample :
    AddNytReview.getUrlD c1link ≠ c1url ∧
    c1link.url ≠ some (AddNytReview.replaceHttps c1url) ∧
    AddNytReview.merge_link (some [c1link]) c1url = some [c1link] ∧
    ((AddNytReview.merge_link (some [c1link]) c1url).getD []).length = 1 := by
  decide

/-- Claim C1 (amended): for every work whose link sequence contains no link
whose URL starts with the candidate URL and no link whose URL is the http
variant of the candidate URL, the merge appends exactly one entry, whose
URL equals the candidate. -/
theorem merge_link_appends (ls : List AddNytReview.Link) (u : Str)
    (hstart : ∀ l ∈ ls, u.isPrefixOf (AddNytReview.getUrlD l) = false)
    (hvar : ∀ l ∈ ls, l.url ≠ some (AddNytReview.replaceHttps u)) :
    AddNytReview.merge_link (some ls) u = some (ls ++ [AddNytReview.mkLinkStruct u]) ∧
    (ls ++ [AddNytReview.mkLinkStruct u]).length = ls.length + 1 ∧
    (AddNytReview.mkLinkStruct u).url = some u := by
  refine ⟨?_, by simp, rfl⟩
  have hneed : AddNytReview.need_to_add_nyt_review_link (some ls) u = true := by
    simp only [AddNytReview.need_to_add_nyt_review_link, Bool.not_eq_true']
    exact List.any_eq_false.mpr (fun l hl => by simp [hstart l hl])
  have hgo : AddNytReview.add_link (some ls) (AddNytReview.mkLinkStruct u) =
      ls ++ [AddNytReview.mkLinkStruct u] := by
    have h2 := add_link_go_skip (AddNytReview.mkLinkStruct u)
      (AddNytReview.replaceHttps u) ls [] hvar
    simp only [List.append_nil] at h2
    show AddNytReview.add_link_go (AddNytReview.mkLinkStruct u)
      (AddNytReview.replaceHttps u) ls = _
    rw [h2]
    rfl
  simp [AddNytReview.merge_link, hneed, hgo]

/-- Claim C1 (amended), witness at a concrete work and candidate. -/
theorem merge_link_appends_witness :
    AddNytReview.merge_link (some [⟨some (str "http://other.co"), none, none⟩])
        (str "https://www.nyt.com/r")
      = some [⟨some (str "http://other.co"), none, none⟩,
              AddNytReview.mkLinkStruct (str "https://www.nyt.com/r")] ∧
    ([⟨some (str "http://other.co"), none, none⟩,
      AddNytReview.mkLinkStruct (str "https://www.nyt.com/r")] : List AddNytReview.Link).length
      = ([⟨some (str "http://other.co"), none, none⟩] : List AddNytReview.Link).length + 1 ∧
    (AddNytReview.mkLinkStruct (str "https://www.nyt.com/r")).url
      = some (str "https://www.nyt.com/r") := by
  have h := merge_link_appends [⟨some (str "http://other.co"), none, none⟩]
    (str "https://www.nyt.com/r") (by decide) (by decide)
  simpa using h

/-- Claim C2: the code contradicts its own docstring (choose the shortest
list name on a date tie).  On a history whose two entries share the minimum
date, with the second entry carrying the strictly shorter list name,
choose_bestseller_list returns the first entry (name length 6), because
get_bestseller_lists_shortest_name filters by the name length of the first
entry instead of the minimum: its loop assigns the running min to a dead
variable. -/
theorem choose_bestseller_list_not_shortest :
    MainHist.choose_bestseller_list c2history = some ⟨5, str "abcdef", none⟩ ∧
    (MainHist.choose_bestseller_list c2history).map
      (fun r => r.list_name.length) = some 6 ∧
    (∃ h ∈ c2history, ∃ r ∈ h.ranks_history,
      r.bestsellers_date = 5 ∧ r.list_name.length = 2) ∧
    (2 : Nat) < 6 := by
  decide

/-- Claim C3, counterexample: a malformed review record (no element starts
with http) makes __parse_review_record raise, but the parse call sits
before the try block of __process_review_record, so the error is NOT
caught by the per-item handler: the record processing propagates the error
(rather than returning updated counters with isbns_failed incremented) and
the batch run aborts even though the following record is well-formed. -/
theorem c3_counterexample :
    AddNytReview.parse_review_record c3rec = .error () ∧
    AddNytReview.process_review_record revEnvNF c3rec revZero = .error () ∧
    AddNytReview.run_records revEnvNF [c3rec, c3good] revZero = .error () := by
  decide

/-- Claim C3 (amended): for every malformed review record (one whose parse
raises), the hard error propagates out of __process_review_record instead
of being caught by the per-item handler — no counter is updated and the
batch loop aborts at that record, leaving the rest unprocessed. -/
theorem process_review_record_malformed (env : Str → AddNytReview.RevLookup)
    (rec : List Str) (jr : AddNytReview.RevResults)
    (rest : List (List Str))
    (h : AddNytReview.parse_review_record rec = .error ()) :
    AddNytReview.process_review_record env rec jr = .error () ∧
    AddNytReview.run_records env (rec :: rest) jr = .error () := by
  have h1 : AddNytReview.process_review_record env rec jr = .error () := by
    unfold AddNytReview.process_review_record
    rw [h]
  refine ⟨h1, ?_⟩
  unfold AddNytReview.run_records
  rw [h1]

/-- Claim C3 (amended), witness at the concrete malformed record. -/
theorem process_review_record_malformed_witness :
    AddNytReview.process_review_record revEnvNF c3rec revZero = .error () ∧
    AddNytReview.run_records revEnvNF (c3rec :: [c3good]) revZero = .error () :=
  process_review_record_malformed revEnvNF c3rec revZero [c3good] (by decide)

/-- Claim C4: a history response whose results list is empty makes
process_history_response return the no-result value None instead of
selecting or indexing into an empty sequence. -/
theorem process_history_response_empty (resp : MainHist.HistResponse)
    (h : resp.results = []) :
    MainHist.process_history_response resp = none := by
  simp [MainHist.process_history_response, h]

/-- Claim C4, witness at the concrete empty response. -/
theorem process_history_response_empty_witness :
    MainHist.process_history_response ⟨[]⟩ = none :=
  process_history_response_empty ⟨[]⟩ rfl

/-- Claim C5: the tag merge is a no-op when some existing subject starts
with the nyt marker or with the bestseller marker; when no subject does,
both new tags are appended; when the work has no subject sequence, the
sequence is initialised to the two new tags. -/
theorem merge_tags_contract (name date : Str) (subjects : Option (List Str)) :
    (∀ l, subjects = some l →
      (∃ s ∈ l, AddNytTag.nytTagStart.isPrefixOf s = true ∨
        AddNytTag.NYT_TAG_BESTSELLER.isPrefixOf s = true) →
      AddNytTag.merge_tags subjects (AddNytTag.mk_new_tags name date) = subjects) ∧
    (∀ l, subjects = some l →
      (∀ s ∈ l, AddNytTag.nytTagStart.isPrefixOf s = false ∧
        AddNytTag.NYT_TAG_BESTSELLER.isPrefixOf s = false) →
      AddNytTag.merge_tags subjects (AddNytTag.mk_new_tags name date)
        = some (l ++ AddNytTag.mk_new_tags name date)) ∧
    (subjects = none →
      AddNytTag.merge_tags subjects (AddNytTag.mk_new_tags name date)
        = some (AddNytTag.mk_new_tags name date)) := by
  refine ⟨?_, ?_, ?_⟩
  · rintro l rfl ⟨s, hs, hp⟩
    have hany : l.any (fun s => AddNytTag.nytTagStart.isPrefixOf s ||
        AddNytTag.NYT_TAG_BESTSELLER.isPrefixOf s) = true :=
      List.any_eq_true.mpr ⟨s, hs, by rcases hp with h | h <;> simp [h]⟩
    simp [AddNytTag.merge_tags, AddNytTag.need_to_add_nyt_bestseller_tag, hany]
  · rintro l rfl hall
    have hany : l.any (fun s => AddNytTag.nytTagStart.isPrefixOf s ||
        AddNytTag.NYT_TAG_BESTSELLER.isPrefixOf s) = false :=
      List.any_eq_false.mpr (fun s hs => by simp [(hall s hs).1, (hall s hs).2])
    simp [AddNytTag.merge_tags, AddNytTag.need_to_add_nyt_bestseller_tag, hany,
      AddNytTag.add_tags]
  · rintro rfl
    simp [AddNytTag.merge_tags, AddNytTag.need_to_add_nyt_bestseller_tag,
      AddNytTag.add_tags]

/-- Claim C5, witness: a subject list already carrying an nyt tag is left
unchanged, a clean subject list receives both tags, and an absent subject
sequence is initialised. -/
theorem merge_tags_contract_witness :
    AddNytTag.merge_tags (some [str "nyt:foo=2020"])
      (AddNytTag.mk_new_tags (str "n") (str "d")) = some [str "nyt:foo=2020"] ∧
    AddNytTag.merge_tags (some [str "history"])
      (AddNytTag.mk_new_tags (str "n") (str "d"))
      = some ([str "history"] ++ AddNytTag.mk_new_tags (str "n") (str "d")) ∧
    AddNytTag.merge_tags none (AddNytTag.mk_new_tags (str "n") (str "d"))
      = some (AddNytTag.mk_new_tags (str "n") (str "d")) :=
  ⟨(merge_tags_contract (str "n") (str "d") (some [str "nyt:foo=2020"])).1
      [str "nyt:foo=2020"] rfl (by decide),
   (merge_tags_contract (str "n") (str "d") (some [str "history"])).2.1
      [str "history"] rfl (by decide),
   (merge_tags_contract (str "n") (str "d") none).2.2 rfl⟩

/-- Claim C6: when the link sequence contains a link whose URL is the http
variant of the candidate https URL (the first such link being at the end of
a variant-free block), __add_link upgrades exactly that link to the
candidate URL in place, keeps every other link unchanged, and keeps the
sequence length. -/
theorem add_link_upgrades (u : Str) (pre post : List AddNytReview.Link)
    (l : AddNytReview.Link)
    (hhttps : (str "https://").isPrefixOf u = true)
    (hl : l.url = some (AddNytReview.replaceHttps u))
    (hpre : ∀ l2 ∈ pre, l2.url ≠ some (AddNytReview.replaceHttps u)) :
    AddNytReview.add_link (some (pre ++ l :: post)) (AddNytReview.mkLinkStruct u)
      = pre ++ { l with url := some u } :: post ∧
    (pre ++ ({ l with url := some u } : AddNytReview.Link) :: post).length
      = (pre ++ l :: post).length := by
  refine ⟨?_, by simp⟩
  have h2 := add_link_go_skip (AddNytReview.mkLinkStruct u)
    (AddNytReview.replaceHttps u) pre (l :: post) hpre
  show AddNytReview.add_link_go (AddNytReview.mkLinkStruct u)
    (AddNytReview.replaceHttps u) (pre ++ l :: post) = _
  rw [h2]
  simp [AddNytReview.add_link_go, hl, AddNytReview.mkLinkStruct]

/-- Claim C6, witness: a one-link sequence holding the http variant is
upgraded in place with no length change. -/
theorem add_link_upgrades_witness :
    AddNytReview.add_link
        (some ([] ++ (⟨some (str "http://a.co/r"), none, none⟩ : AddNytReview.Link) :: []))
        (AddNytReview.mkLinkStruct (str "https://a.co/r"))
      = [] ++ ({ (⟨some (str "http://a.co/r"), none, none⟩ : AddNytReview.Link) with
          url := some (str "https://a.co/r") } : AddNytReview.Link) :: [] ∧
    ([] ++ ({ (⟨some (str "http://a.co/r"), none, none⟩ : AddNytReview.Link) with
        url := some (str "https://a.co/r") } : AddNytReview.Link) :: []).length
      = ([] ++ (⟨some (str "http://a.co/r"), none, none⟩ : AddNytReview.Link) :: []).length :=
  add_link_upgrades (str "https://a.co/r") [] []
    ⟨some (str "http://a.co/r"), none, none⟩ (by decide) (by decide) (by decide)

/-- Claim C7: the first-appearance predicate (under Python truthiness)
holds exactly when the list cadence is WEEKLY and weeks_on_list is 1, or
the cadence is MONTHLY and weeks_on_list is 0; in particular 2 weeks on a
WEEKLY list and 1 week on a MONTHLY list do not satisfy it. -/
theorem first_time_on_list_iff (l : Collector.NytList) (b : Collector.NytBook) :
    (Collector.truthy (Collector.first_time_on_list l b) = true ↔
      (l.updated = some Collector.WEEKLY ∧ b.weeks_on_list = some 1) ∨
      (l.updated = some Collector.MONTHLY ∧ b.weeks_on_list = some 0)) ∧
    Collector.truthy (Collector.first_time_on_list
      { l with updated := some Collector.WEEKLY }
      { b with weeks_on_list := some 2 }) = false ∧
    Collector.truthy (Collector.first_time_on_list
      { l with updated := some Collector.MONTHLY }
      { b with weeks_on_list := some 1 }) = false := by
  have hwm : Collector.WEEKLY ≠ Collector.MONTHLY := by decide
  have hmw : Collector.MONTHLY ≠ Collector.WEEKLY := hwm.symm
  refine ⟨?_, ?_, ?_⟩
  · by_cases hw : l.updated = some Collector.WEEKLY
    · have hm : l.updated ≠ some Collector.MONTHLY := by
        rw [hw]
        simp [hwm]
      simp [Collector.first_time_on_list, Collector.truthy, hw, hm, hwm]
    · by_cases hm : l.updated = some Collector.MONTHLY
      · simp [Collector.first_time_on_list, Collector.truthy, hw, hm, hmw]
      · simp [Collector.first_time_on_list, Collector.truthy, hw, hm]
  · simp [Collector.first_time_on_list, Collector.truthy]
  · have : some Collector.MONTHLY ≠ some Collector.WEEKLY := by
      simp [hwm.symm]
    simp [Collector.first_time_on_list, Collector.truthy, this]

/-- Helper: the inner book loop only appends fresh ISBNs — the appended
block is duplicate-free, disjoint from the incoming seen set, contained in
the outgoing seen set, and the seen set only grows. -/
theorem process_books_go_spec (l : Collector.NytList) :
    ∀ (bs : List Collector.NytBook) (isbns seen isbns2 seen2 : List Str),
    Collector.process_books_go l bs isbns seen = .ok (isbns2, seen2) →
    ∃ d, isbns2 = isbns ++ d ∧ d.Nodup ∧
      (∀ x ∈ d, x ∉ seen) ∧ (∀ x ∈ d, x ∈ seen2) ∧ (∀ x ∈ seen, x ∈ seen2) := by
  intro bs
  induction bs with
  | nil =>
      intro isbns seen isbns2 seen2 h
      simp only [Collector.process_books_go, Except.ok.injEq, Prod.mk.injEq] at h
      obtain ⟨rfl, rfl⟩ := h
      exact ⟨[], by simp, List.nodup_nil, by simp, by simp, fun x hx => hx⟩
  | cons b rest ih =>
      intro isbns seen isbns2 seen2 h
      simp only [Collector.process_books_go] at h
      split at h
      · -- first-time predicate fired
        split at h
        · -- select_isbn raised
          simp at h
        · rename_i isbn hsel
          split at h
          · -- ISBN already seen: skipped
            exact ih isbns seen isbns2 seen2 h
          · -- fresh ISBN: appended and inserted
            rename_i hnm
            obtain ⟨d, hi, hnd, hns, hin, hsub⟩ :=
              ih (isbns ++ [isbn]) (isbn :: seen) isbns2 seen2 h
            refine ⟨isbn :: d, ?_, ?_, ?_, ?_, ?_⟩
            · rw [hi]
              simp
            · exact List.nodup_cons.mpr
                ⟨fun hc => (hns isbn hc) (List.mem_cons_self _ _), hnd⟩
            · intro x hx
              rcases List.mem_cons.mp hx with h1 | hx2
              · rw [h1]
                exact hnm
              · intro hxs
                exact hns x hx2 (List.mem_cons_of_mem _ hxs)
            · intro x hx
              rcases List.mem_cons.mp hx with h1 | hx2
              · rw [h1]
                exact hsub isbn (List.mem_cons_self _ _)
              · exact hin x hx2
            · intro x hx
              exact hsub x (List.mem_cons_of_mem _ hx)
      · exact ih isbns seen isbns2 seen2 h

/-- Helper: the outer list loop appends output groups whose combined ISBNs
are duplicate-free, disjoint from the incoming seen set, contained in the
outgoing seen set; the seen set only grows. -/
theorem process_lists_go_spec (pd : Str) :
    ∀ (lists : List Collector.NytList) (outs : List Collector.ListData)
      (seen : List Str) (outs2 : List Collector.ListData) (seen2 : List Str),
    Collector.process_lists_go pd lists outs seen = .ok (outs2, seen2) →
    ∃ nd, outs2 = outs ++ nd ∧ (Collector.emitted nd).Nodup ∧
      (∀ x ∈ Collector.emitted nd, x ∉ seen) ∧
      (∀ x ∈ Collector.emitted nd, x ∈ seen2) ∧
      (∀ x ∈ seen, x ∈ seen2) := by
  intro lists
  induction lists with
  | nil =>
      intro outs seen outs2 seen2 h
      simp only [Collector.process_lists_go, Except.ok.injEq, Prod.mk.injEq] at h
      obtain ⟨rfl, rfl⟩ := h
      refine ⟨[], by simp, ?_, ?_, ?_, fun x hx => hx⟩
      · simp [Collector.emitted]
      · simp [Collector.emitted]
      · simp [Collector.emitted]
  | cons l rest ih =>
      intro outs seen outs2 seen2 h
      simp only [Collector.process_lists_go] at h
      cases hb : Collector.process_books_go l l.books [] seen with
      | error e =>
          rw [hb] at h
          simp at h
      | ok p =>
          obtain ⟨isbns, seen1⟩ := p
          rw [hb] at h
          obtain ⟨d, hd, hdnd, hdns, hdin, hdsub⟩ :=
            process_books_go_spec l l.books [] seen isbns seen1 hb
          simp only [List.nil_append] at hd
          subst hd
          obtain ⟨nd, hnd2, hEnd, hEns, hEin, hEsub⟩ :=
            ih (outs ++ [⟨l.list_name_encoded, pd, isbns⟩]) seen1 outs2 seen2 h
          refine ⟨(⟨l.list_name_encoded, pd, isbns⟩ : Collector.ListData) :: nd,
            ?_, ?_, ?_, ?_, ?_⟩
          · rw [hnd2]
            simp
          · show (isbns ++ Collector.emitted nd).Nodup
            refine List.Nodup.append hdnd hEnd ?_
            intro x hxd hxE
            exact hEns x hxE (hdin x hxd)
          · show ∀ x ∈ isbns ++ Collector.emitted nd, x ∉ seen
            intro x hx
            rcases List.mem_append.mp hx with hxd | hxE
            · exact hdns x hxd
            · intro hxs
              exact hEns x hxE (hdsub x hxs)
          · show ∀ x ∈ isbns ++ Collector.emitted nd, x ∈ seen2
            intro x hx
            rcases List.mem_append.mp hx with hxd | hxE
            · exact hEsub x (hdin x hxd)
            · exact hEin x hxE
          · intro x hx
            exact hEsub x (hdsub x hx)

/-- Claim C8: across two successive calls of process_overview_response on
the same threaded seen set, the seen set only grows, every emitted ISBN
ends up in the final seen set, the combined emitted output holds each ISBN
at most once even when the first-appearance predicate fires in both
responses, and an ISBN already in the initial set is never emitted. -/
theorem process_overview_seen_set (r1 r2 : Collector.Overview)
    (seen0 s1 s2 : List Str) (o1 o2 : List Collector.ListData)
    (h1 : Collector.process_overview_response r1 seen0 = .ok (o1, s1))
    (h2 : Collector.process_overview_response r2 s1 = .ok (o2, s2)) :
    seen0 ⊆ s1 ∧ s1 ⊆ s2 ∧
    (Collector.emitted o1 ++ Collector.emitted o2) ⊆ s2 ∧
    (Collector.emitted o1 ++ Collector.emitted o2).Nodup ∧
    seen0.Disjoint (Collector.emitted o1 ++ Collector.emitted o2) := by
  obtain ⟨nd1, ho1, hnd1, hns1, hin1, hsub1⟩ :=
    process_lists_go_spec r1.published_date r1.lists [] seen0 o1 s1 h1
  obtain ⟨nd2, ho2, hnd2, hns2, hin2, hsub2⟩ :=
    process_lists_go_spec r2.published_date r2.lists [] s1 o2 s2 h2
  simp only [List.nil_append] at ho1 ho2
  subst ho1
  subst ho2
  refine ⟨fun x hx => hsub1 x hx, fun x hx => hsub2 x hx, ?_, ?_, ?_⟩
  · intro x hx
    rcases List.mem_append.mp hx with hx1 | hx2
    · exact hsub2 x (hin1 x hx1)
    · exact hin2 x hx2
  · refine List.Nodup.append hnd1 hnd2 ?_
    intro x hx1 hx2
    exact hns2 x hx2 (hin1 x hx1)
  · intro x hx hmem
    rcases List.mem_append.mp hmem with hx1 | hx2
    · exact hns1 x hx1 hx
    · exact hns2 x hx2 (hsub1 x hx)

/-- Claim C8, witness: the same first-week book appears in two successive
weekly responses; the second emission is suppressed by the seen set. -/
theorem process_overview_seen_set_witness :
    ([] : List Str) ⊆ [str "1234567890123"] ∧
    [str "1234567890123"] ⊆ [str "1234567890123"] ∧
    (Collector.emitted [⟨str "hardcover-fiction", str "2024-01-01",
        [str "1234567890123"]⟩] ++
      Collector.emitted [⟨str "hardcover-fiction", str "2024-01-08", []⟩])
      ⊆ [str "1234567890123"] ∧
    (Collector.emitted [⟨str "hardcover-fiction", str "2024-01-01",
        [str "1234567890123"]⟩] ++
      Collector.emitted [⟨str "hardcover-fiction", str "2024-01-08", []⟩]).Nodup ∧
    ([] : List Str).Disjoint
      (Collector.emitted [⟨str "hardcover-fiction", str "2024-01-01",
        [str "1234567890123"]⟩] ++
      Collector.emitted [⟨str "hardcover-fiction", str "2024-01-08", []⟩]) :=
  process_overview_seen_set c8resp1 c8resp2 [] [str "1234567890123"]
    [str "1234567890123"]
    [⟨str "hardcover-fiction", str "2024-01-01", [str "1234567890123"]⟩]
    [⟨str "hardcover-fiction", str "2024-01-08", []⟩]
    (by decide) (by decide)

/-- Claim C9: ISBN selection returns primary_isbn13 when present with
exactly 13 characters, and returns primary_isbn10 exactly when
primary_isbn13 is absent (default empty) or not exactly 13 characters
long.  The hypothesis that the 10-digit identifier is not 13 characters
long rules out the degenerate case of identical identifiers. -/
theorem select_isbn_policy (b : Collector.NytBook) (i10 : Str)
    (h10 : b.primary_isbn10 = some i10) (hlen : i10.length ≠ 13) :
    (∀ i13, b.primary_isbn13 = some i13 → i13.length = 13 →
      Collector.select_isbn b = .ok i13) ∧
    (Collector.select_isbn b = .ok i10 ↔
      (b.primary_isbn13.getD []).length ≠ 13) := by
  constructor
  · intro i13 h13 hl13
    simp [Collector.select_isbn, h13, hl13]
  · constructor
    · intro hok hc
      have hsel : Collector.select_isbn b = .ok (b.primary_isbn13.getD []) := by
        simp [Collector.select_isbn, hc]
      have h2 : b.primary_isbn13.getD [] = i10 := by
        have h3 := hsel.symm.trans hok
        simpa using h3
      exact hlen (h2 ▸ hc)
    · intro hc
      simp [Collector.select_isbn, hc, h10]

/-- Claim C9, witness: a 13-character identifier wins over a present
10-character one; a wrong-length 13-field falls back to the 10-field. -/
theorem select_isbn_policy_witness :
    Collector.select_isbn ⟨some (str "9780140063134"), some (str "0140063137"), none⟩
      = .ok (str "9780140063134") ∧
    Collector.select_isbn ⟨some (str "bad"), some (str "0140063137"), none⟩
      = .ok (str "0140063137") :=
  ⟨(select_isbn_policy ⟨some (str "9780140063134"), some (str "0140063137"), none⟩
      (str "0140063137") rfl (by decide)).1 (str "9780140063134") rfl (by decide),
   (select_isbn_policy ⟨some (str "bad"), some (str "0140063137"), none⟩
      (str "0140063137") rfl (by decide)).2.mpr (by decide)⟩

/-- Helper: one completed iteration of the ISBN loop increments
total_books_processed by one, increments the sum of the four outcome
counters by one, and preserves the counter invariant. -/
theorem step_spec (env : Str → AddNytTag.TagLookup) (jr : AddNytTag.TagResults)
    (isbn : Str) :
    (AddNytTag.step env jr isbn).total_books_processed
      = jr.total_books_processed + 1 ∧
    (AddNytTag.step env jr isbn).books_imported
      + (AddNytTag.step env jr isbn).tags_added
      + (AddNytTag.step env jr isbn).tags_already_exist
      + (AddNytTag.step env jr isbn).isbns_failed
      = jr.books_imported + jr.tags_added + jr.tags_already_exist
        + jr.isbns_failed + 1 ∧
    (AddNytTag.counters_ok jr → AddNytTag.counters_ok (AddNytTag.step env jr isbn)) := by
  unfold AddNytTag.step
  cases henv : env isbn with
  | raise =>
      simp [AddNytTag.counters_ok]
      exact ⟨by omega, fun h1 h2 => by omega⟩
  | notFound =>
      simp [AddNytTag.counters_ok]
      exact ⟨by omega, fun h1 h2 => by omega⟩
  | found e sr =>
      obtain ⟨w⟩ := e
      cases w with
      | none =>
          simp [AddNytTag.tag_process_found, AddNytTag.counters_ok]
          exact ⟨by omega, fun h1 h2 => by omega⟩
      | some wk =>
          by_cases hneed : AddNytTag.need_to_add_nyt_bestseller_tag wk.subjects = true
          · cases sr with
            | true =>
                simp [AddNytTag.tag_process_found, hneed, AddNytTag.counters_ok]
                exact ⟨by omega, fun h1 h2 => by omega⟩
            | false =>
                simp [AddNytTag.tag_process_found, hneed, AddNytTag.counters_ok]
                exact ⟨by omega, fun h1 h2 => by omega⟩
          · simp [AddNytTag.tag_process_found, hneed, AddNytTag.counters_ok]
            exact ⟨by omega, fun h1 h2 => by omega⟩

/-- Helper: the counter invariant is preserved by the whole ISBN loop of a
group. -/
theorem foldl_step_ok (env : Str → AddNytTag.TagLookup) (isbns : List Str) :
    ∀ jr, AddNytTag.counters_ok jr →
      AddNytTag.counters_ok (isbns.foldl (AddNytTag.step env) jr) := by
  induction isbns with
  | nil =>
      intro jr h
      simpa using h
  | cons i rest ih =>
      intro jr h
      simp only [List.foldl_cons]
      exact ih _ ((step_spec env jr i).2.2 h)

/-- Helper: the counter invariant holds at normal run completion. -/
theorem run_counters_ok (env : Str → AddNytTag.TagLookup)
    (groups : List AddNytTag.BestsellerGroup) :
    AddNytTag.counters_ok (AddNytTag.runJob env groups) := by
  unfold AddNytTag.runJob
  have hgen : ∀ jr, AddNytTag.counters_ok jr →
      AddNytTag.counters_ok
        (groups.foldl (fun jr g => g.isbns.foldl (AddNytTag.step env) jr) jr) := by
    induction groups with
    | nil =>
        intro jr h
        simpa using h
    | cons g rest ih =>
        intro jr h
        simp only [List.foldl_cons]
        exact ih _ (foldl_step_ok env g.isbns jr h)
  exact hgen AddNytTag.init_results ⟨rfl, rfl⟩

/-- Claim C10: each completed ISBN iteration increments exactly one of the
four outcome counters (their sum grows by one) and then increments
total_books_processed; hence between completed iterations the invariant
total_books_processed = books_imported + tags_added + tags_already_exist
+ isbns_failed and books_imported = length books_imported_isbns is
preserved, and it holds at normal run completion. -/
theorem tag_job_counter_invariant (env : Str → AddNytTag.TagLookup)
    (jr : AddNytTag.TagResults) (isbn : Str)
    (groups : List AddNytTag.BestsellerGroup)
    (h : AddNytTag.counters_ok jr) :
    (AddNytTag.step env jr isbn).total_books_processed
      = jr.total_books_processed + 1 ∧
    (AddNytTag.step env jr isbn).books_imported
      + (AddNytTag.step env jr isbn).tags_added
      + (AddNytTag.step env jr isbn).tags_already_exist
      + (AddNytTag.step env jr isbn).isbns_failed
      = jr.books_imported + jr.tags_added + jr.tags_already_exist
        + jr.isbns_failed + 1 ∧
    AddNytTag.counters_ok (AddNytTag.step env jr isbn) ∧
    AddNytTag.counters_ok (AddNytTag.runJob env groups) :=
  ⟨(step_spec env jr isbn).1, (step_spec env jr isbn).2.1,
   (step_spec env jr isbn).2.2 h, run_counters_ok env groups⟩

/-- Claim C10, witness at a concrete environment, counter state, ISBN and
group list. -/
theorem tag_job_counter_invariant_witness :
    (AddNytTag.step tagEnvNF AddNytTag.init_results (str "1")).total_books_processed
      = AddNytTag.init_results.total_books_processed + 1 ∧
    (AddNytTag.step tagEnvNF AddNytTag.init_results (str "1")).books_imported
      + (AddNytTag.step tagEnvNF AddNytTag.init_results (str "1")).tags_added
      + (AddNytTag.step tagEnvNF AddNytTag.init_results (str "1")).tags_already_exist
      + (AddNytTag.step tagEnvNF AddNytTag.init_results (str "1")).isbns_failed
      = AddNytTag.init_results.books_imported + AddNytTag.init_results.tags_added
        + AddNytTag.init_results.tags_already_exist
        + AddNytTag.init_results.isbns_failed + 1 ∧
    AddNytTag.counters_ok (AddNytTag.step tagEnvNF AddNytTag.init_results (str "1")) ∧
    AddNytTag.counters_ok (AddNytTag.runJob tagEnvNF [⟨str "l", str "d", [str "1"]⟩]) :=
  tag_job_counter_invariant tagEnvNF AddNytTag.init_results (str "1")
    [⟨str "l", str "d", [str "1"]⟩] (by decide)
